import Mathlib

/-!
Shallow embedding of `dhi_eol_detector.py` (DHI EOL Detector).

Strings manipulated by the Python code are modelled as `List Char`
(Python `str` is a sequence of code points); Python `str | None` values
are `Option`; Python dictionaries coming from JSON are association
lists / records of `Option` fields.  External effects (the `docker`
subprocess, the HTTP auth and GraphQL calls, `date.today()`) are
modelled as explicit environments recording the outcome of each
external interaction, and the observable behaviour of `run` is a list
of output events plus an exit status.
-/

deriving instance DecidableEq for Except

namespace DhiEol

/-- Python truthiness of a `str | None` value: `None` and `""` are falsy. -/
def pyFalsyOpt : Option String → Bool
  | none => true
  | some s => s = ""

/-! ### Character-list helpers mirroring Python `str` methods -/

/-- Characters stripped by Python `str.strip()`, i.e. the code points for
which `str.isspace()` holds (CPython `Py_UNICODE_ISSPACE`): tab through
carriage return (U+0009–U+000D), the information separators
U+001C–U+001F, space, next line U+0085, no-break space U+00A0, Ogham
space mark U+1680, the typographic spaces U+2000–U+200A, line and
paragraph separators U+2028/U+2029, narrow no-break space U+202F, medium
mathematical space U+205F, and ideographic space U+3000. -/
def isPySpace (c : Char) : Bool :=
  (9 ≤ c.toNat && c.toNat ≤ 13) || (28 ≤ c.toNat && c.toNat ≤ 31) ||
  c.toNat = 32 || c.toNat = 133 || c.toNat = 160 || c.toNat = 0x1680 ||
  (0x2000 ≤ c.toNat && c.toNat ≤ 0x200A) || c.toNat = 0x2028 || c.toNat = 0x2029 ||
  c.toNat = 0x202F || c.toNat = 0x205F || c.toNat = 0x3000

/-- Python `s.strip()`: drop leading and trailing whitespace. -/
def pyStrip (l : List Char) : List Char :=
  ((l.dropWhile isPySpace).reverse.dropWhile isPySpace).reverse

/-- Python `s.rstrip(ch)` for a single character: drop trailing occurrences. -/
def pyRstripChar (ch : Char) (l : List Char) : List Char :=
  (l.reverse.dropWhile (fun c => c = ch)).reverse

/-- Python `sep in s` for a non-empty separator `sep` (substring containment). -/
def containsSeq (sep : List Char) : List Char → Bool
  | [] => sep.isEmpty
  | c :: rest => sep.isPrefixOf (c :: rest) || containsSeq sep (rest)

/-- Auxiliary scan for `str.split(sep)[-1]`: walks the list left to right,
and each time `sep` occurs (non-overlapping, as in Python `str.split`),
restarts after it with the remainder as the current answer.  `fuel`
bounds the recursion; it is instantiated with `l.length + 1`. -/
def splitTailAux (sep : List Char) : Nat → List Char → List Char → List Char
  | 0, _, best => best
  | _ + 1, [], best => best
  | fuel + 1, c :: rest, best =>
    if sep.isPrefixOf (c :: rest) then
      splitTailAux sep fuel ((c :: rest).drop sep.length) ((c :: rest).drop sep.length)
    else
      splitTailAux sep fuel rest best

/-- Python `s.split(sep)[-1]` for a non-empty separator: the part of `s`
after the last (non-overlapping) occurrence of `sep`, or `s` itself when
`sep` does not occur. -/
def afterLastSeq (sep l : List Char) : List Char :=
  splitTailAux sep (l.length + 1) l l

/-! ### `parse_image_reference` (source lines 57–94) -/

/-- The registry prefixes stripped by `parse_image_reference`, in the order
the Python `for` loop tries them (it `break`s after the first match). -/
def knownRegistryPrefixes : List (List Char) :=
  ["docker.io/library/".data, "docker.io/".data,
   "index.docker.io/library/".data, "index.docker.io/".data]

/-- The prefix-stripping loop of `parse_image_reference`: strip the first
matching known registry prefix (at most one). -/
def stripKnownRegistry (l : List Char) : List Char :=
  match knownRegistryPrefixes.find? (fun p => p.isPrefixOf l) with
  | some p => l.drop p.length
  | none => l

/-- Python `ref.rsplit(":", 1)` restricted to the case `":" in ref`:
returns (part before the last colon, part after the last colon). -/
def rsplitColon (l : List Char) : List Char × List Char :=
  let r := l.reverse
  (((r.dropWhile (fun c => decide (c ≠ ':'))).tail).reverse,
   (r.takeWhile (fun c => decide (c ≠ ':'))).reverse)

/-- The digest-handling step: `if "@" in ref: ref = ref.split("@")[0]`
(everything before the first `@`). -/
def digestCut (l : List Char) : List Char :=
  if '@' ∈ l then l.takeWhile (fun c => decide (c ≠ '@')) else l

/-- The tag-splitting step: `if ":" in ref: ref, tag = ref.rsplit(":", 1)`. -/
def tagSplit (l : List Char) : List Char × Option (List Char) :=
  if ':' ∈ l then ((rsplitColon l).1, some (rsplitColon l).2) else (l, none)

/-- The final step: strip a leading `"library/"`. -/
def libraryCut (l : List Char) : List Char :=
  if ("library/".data).isPrefixOf l then l.drop ("library/".data).length else l

/-- `parse_image_reference(image_ref)`: normalise a Docker image reference
into `(repository, tag)`.  Mirrors the source: strip whitespace, strip the
first matching known registry prefix, cut at the first `@` (digest), split
the tag after the last `:`, and strip a leading `"library/"`. -/
def parse_image_reference (image_ref : List Char) : List Char × Option (List Char) :=
  let p := tagSplit (digestCut (stripKnownRegistry (pyStrip image_ref)))
  (libraryCut p.1, p.2)

/-! ### Label sets and `extract_dhi_info` (source lines 126–151) -/

/-- A label set: a JSON object mapping string keys to string values,
modelled as an association list with the first binding winning
(Python dict keys are unique, so at most one binding per key occurs). -/
abbrev Labels := List (String × String)

/-- Python `labels.get(key)`. -/
def dictGet : Labels → String → Option String
  | [], _ => none
  | (k, v) :: rest, key => if k = key then some v else dictGet rest key

/-- `extract_dhi_info(labels)`: extract `(repository, version)` from the
DHI labels, or `(None, None)` when the `com.docker.dhi.url` label is
absent or empty.  The URL is reduced to a repository name: strip trailing
slashes; if it contains `"/r/"`, keep what follows the last `"/r/"`;
otherwise, if it starts with `"http"`, keep the last `/`-separated
component. -/
def extract_dhi_info (labels : Labels) : Option String × Option String :=
  let dhi_url := dictGet labels "com.docker.dhi.url"
  let dhi_version := dictGet labels "com.docker.dhi.version"
  if pyFalsyOpt dhi_url then (none, none)
  else
    let repo := (dhi_url.getD "").data
    let repo := pyRstripChar '/' repo
    let repo :=
      if containsSeq "/r/".data repo then afterLastSeq "/r/".data repo
      else if ("http".data).isPrefixOf repo then afterLastSeq "/".data repo
      else repo
    (some (String.mk repo), dhi_version)

/-! ### `get_image_labels` (source lines 99–123)

The `docker inspect` / `docker pull` subprocess calls are modelled by an
environment recording each call's outcome.  An inspection outcome is
`none` when the subprocess fails or its output is unparsable
(`CalledProcessError` / `JSONDecodeError`), and `some r` on success,
where `r : Option Labels` is the parsed JSON (`none` for JSON `null`,
which the code's `or {}` turns into an empty dict). -/

/-- The two docker subprocess commands invoked by `get_image_labels`. -/
inductive Cmd
  | inspect
  | pull
deriving DecidableEq, Repr

/-- Outcomes of the external docker invocations: the first `docker inspect`,
the `docker pull`, and the retried `docker inspect`. -/
structure DockerEnv where
  inspect1 : Option (Option Labels)
  pullOk : Bool
  inspect2 : Option (Option Labels)

/-- `get_image_labels(image)`: returns the sequence of docker commands
invoked (in order) and the resulting label set.  First inspection; on
failure, pull, and only if the pull succeeds, a second inspection; any
failure on the recovery path yields the empty label set. -/
def get_image_labels (env : DockerEnv) : List Cmd × Labels :=
  match env.inspect1 with
  | some r => ([Cmd.inspect], r.getD [])
  | none =>
    if env.pullOk then
      match env.inspect2 with
      | some r => ([Cmd.inspect, Cmd.pull, Cmd.inspect], r.getD [])
      | none => ([Cmd.inspect, Cmd.pull, Cmd.inspect], [])
    else ([Cmd.inspect, Cmd.pull], [])

/-! ### Tag definitions and `find_matching_tag_definition` (source lines 247–272) -/

/-- A tag definition returned by the Docker Scout GraphQL API: a JSON
object with keys `displayName`, `tagNames`, `endOfLife`.  A `none` field
models an absent key (the code reads the fields with `.get`, defaulting
`tagNames` to `[]`). -/
structure TagDef where
  displayName : Option String
  tagNames : Option (List String)
  endOfLife : Option String
deriving DecidableEq, Repr

/-- `td.get("tagNames") or []`. -/
def tagNamesOf (td : TagDef) : List String :=
  td.tagNames.getD []

/-- `"latest" in (td.get("tagNames") or [])`. -/
def hasLatest (td : TagDef) : Bool :=
  (tagNamesOf td).any (fun tn => decide (tn = "latest"))

/-- `tag in (td.get("tagNames") or [])`. -/
def exactMatch (t : String) (td : TagDef) : Bool :=
  (tagNamesOf td).any (fun tn => decide (tn = t))

/-- Python `s.startswith(pre)`. -/
def pyStartsWith (s pre : String) : Bool :=
  pre.data.isPrefixOf s.data

/-- `any(tn.startswith(tag) or tag.startswith(tn) for tn in td.get("tagNames") or [])`. -/
def prefixMatch (t : String) (td : TagDef) : Bool :=
  (tagNamesOf td).any (fun tn => pyStartsWith tn t || pyStartsWith t tn)

/-- `find_matching_tag_definition(tag, tag_definitions)`: with no tag (or an
empty one), the first definition whose tag names contain `"latest"`, else
the first definition, else `None`; with a non-empty tag, the first exact
match, else the first prefix match (either direction), else `None`. -/
def find_matching_tag_definition (tag : Option String) (tds : List TagDef) : Option TagDef :=
  if pyFalsyOpt tag then
    match tds.find? hasLatest with
    | some td => some td
    | none => tds.head?
  else
    match tds.find? (exactMatch (tag.getD "")) with
    | some td => some td
    | none => tds.find? (prefixMatch (tag.getD ""))

/-! ### Date parsing and arithmetic (source lines 337–339)

`datetime.strptime(eol[:10], "%Y-%m-%d").date()` and date subtraction.
Dates are identified with their proleptic Gregorian ordinal
(`date.toordinal()`: day 1 is January 1 of year 1), so a date difference
`eol_date - today` has day count `toOrdinal eol - today`. -/

/-- Gregorian leap year test. -/
def isLeap (y : Nat) : Bool :=
  y % 4 = 0 && (y % 100 ≠ 0 || y % 400 = 0)

/-- Number of days in month `m` of year `y`. -/
def daysInMonth (y m : Nat) : Nat :=
  if m = 2 then (if isLeap y then 29 else 28)
  else if m = 4 || m = 6 || m = 9 || m = 11 then 30
  else 31

/-- Days in year `y` before the first day of month `m`. -/
def daysBeforeMonth (y m : Nat) : Nat :=
  ((List.range (m - 1)).map (fun k => daysInMonth y (k + 1))).sum

/-- Days before January 1 of year `y` (proleptic Gregorian). -/
def daysBeforeYear (y : Nat) : Nat :=
  (y - 1) * 365 + (y - 1) / 4 - (y - 1) / 100 + (y - 1) / 400

/-- `date(y, m, d).toordinal()`. -/
def toOrdinal (y m d : Nat) : Nat :=
  daysBeforeYear y + daysBeforeMonth y m + d

/-- Python `s.split(sep)` for a single-character separator. -/
def splitOnChar (sep : Char) : List Char → List (List Char)
  | [] => [[]]
  | c :: rest =>
    let r := splitOnChar sep rest
    if c = sep then [] :: r
    else
      match r with
      | h :: t => (c :: h) :: t
      | [] => [[c]]

/-- The numeric value of a non-empty all-digit character list, else `none`. -/
def parseNatDigits (l : List Char) : Option Nat :=
  if l ≠ [] ∧ l.all Char.isDigit then
    some (l.foldl (fun a c => a * 10 + (c.toNat - 48)) 0)
  else none

/-- `datetime.strptime(s[:10], "%Y-%m-%d").date()` as a validated
`(year, month, day)` triple, `none` on `ValueError`.  `strptime`
requires exactly four digits for `%Y` and one or two digits for `%m`
and `%d`, with nothing left over; the date constructor then checks
month and day ranges (year 0 is below `MINYEAR`). -/
def parseDate10 (s : String) : Option (Nat × Nat × Nat) :=
  match splitOnChar '-' (s.data.take 10) with
  | [ys, ms, ds] =>
    match parseNatDigits ys, parseNatDigits ms, parseNatDigits ds with
    | some y, some m, some d =>
      if ys.length = 4 ∧ ms.length ≤ 2 ∧ ds.length ≤ 2 ∧
         1 ≤ y ∧ 1 ≤ m ∧ m ≤ 12 ∧ 1 ≤ d ∧ d ≤ daysInMonth y m then
        some (y, m, d)
      else none
    | _, _, _ => none
  | _ => none

/-! ### Day-delta formatting (source lines 340–356) -/

/-- `f"{n} unit{'s' if n != 1 else ''}"`. -/
def unitPart (n : Nat) (unit : String) : String :=
  toString n ++ " " ++ unit ++ (if n ≠ 1 then "s" else "")

/-- The `parts` list built from an absolute day count: `divmod` by 365
into years, the remainder `divmod` by 30 into months and days, keeping
only the non-zero components (Python truthiness of `int`). -/
def breakdownParts (absDays : Nat) : List String :=
  let years := absDays / 365
  let rem := absDays % 365
  let months := rem / 30
  let days := rem % 30
  (if years ≠ 0 then [unitPart years "year"] else []) ++
  (if months ≠ 0 then [unitPart months "month"] else []) ++
  (if days ≠ 0 then [unitPart days "day"] else [])

/-- `", ".join(parts)`: the rendered years/months/days breakdown. -/
def formatBreakdown (absDays : Nat) : String :=
  String.intercalate ", " (breakdownParts absDays)

/-! ### `get_jwt_token` (source lines 167–189)

The credential environment variables and the HTTP auth exchange are
modelled by an environment; `sys.exit(1)` is the `Except.error` case. -/

/-- Outcome of the environment variables and the auth HTTP call:
`authResponse` is `Except.error ()` when the request raises
`RequestException` (connection failure or non-2xx status), and on
success carries the response JSON's `token` and `access_token` fields. -/
structure AuthEnv where
  username : Option String
  pat : Option String
  authResponse : Except Unit (Option String × Option String)

/-- `get_jwt_token()`: `Except.error ()` models `sys.exit(1)` (missing
credentials, failed request, or missing token); `Except.ok tok` is the
returned JWT. -/
def get_jwt_token (env : AuthEnv) : Except Unit String :=
  if pyFalsyOpt env.username || pyFalsyOpt env.pat then Except.error ()
  else
    match env.authResponse with
    | Except.error _ => Except.error ()
    | Except.ok (tok, access) =>
      let token := if pyFalsyOpt tok then access else tok
      if pyFalsyOpt token then Except.error () else Except.ok (token.getD "")

/-- Whether an `Except` is in its error case. -/
def isErr : Except Unit α → Bool
  | Except.error _ => true
  | Except.ok _ => false

/-! ### `run` (source lines 277–371)

The observable behaviour of `run` is a list of console events (one per
print site that the claims are about; formatting and echoed label lines
are abstracted) plus an exit status.  `fetch_eol_info` performs an HTTP
request with no surrounding `try`, so its failure is an uncaught
exception. -/

/-- The console events emitted by `run`. -/
inductive Event
  | couldNotInspect
  | notHardened
  | isHardened
  | authOk
  | noTagDefs
  | matchedDef (displayName : String)
  | eolShown (eol : String)
  | pastEol (breakdown : String)
  | remaining (breakdown : String)
  | noPlannedEol
  | noMatchWarn
deriving DecidableEq, Repr

/-- How the process ends: normal return (exit 0), `sys.exit(1)`, or an
uncaught exception propagating out of `run`. -/
inductive ExitStatus
  | ok
  | exit1
  | uncaught
deriving DecidableEq, Repr

/-- The external-world outcomes `run` depends on: the label set produced
by `get_image_labels`, the auth environment, the outcome of the
`fetch_eol_info` GraphQL call (`Except.error ()` when the request or its
response handling raises), and `date.today()` as an ordinal. -/
structure RunEnv where
  labels : Labels
  auth : AuthEnv
  catalog : Except Unit (List TagDef)
  today : Nat

/-- `run(image)`: the emitted events and the exit status. -/
def runModel (env : RunEnv) : List Event × ExitStatus :=
  if env.labels.isEmpty then ([Event.couldNotInspect], ExitStatus.ok)
  else
    let info := extract_dhi_info env.labels
    if pyFalsyOpt info.1 then ([Event.notHardened], ExitStatus.ok)
    else
      match get_jwt_token env.auth with
      | Except.error _ => ([Event.isHardened], ExitStatus.exit1)
      | Except.ok _ =>
        match env.catalog with
        | Except.error _ => ([Event.isHardened, Event.authOk], ExitStatus.uncaught)
        | Except.ok tag_definitions =>
          if tag_definitions.isEmpty then
            ([Event.isHardened, Event.authOk, Event.noTagDefs], ExitStatus.ok)
          else
            match find_matching_tag_definition info.2 tag_definitions with
            | none => ([Event.isHardened, Event.authOk, Event.noMatchWarn], ExitStatus.ok)
            | some md =>
              let pre := [Event.isHardened, Event.authOk,
                          Event.matchedDef (md.displayName.getD "N/A")]
              if pyFalsyOpt md.endOfLife then
                (pre ++ [Event.noPlannedEol], ExitStatus.ok)
              else
                let eol := md.endOfLife.getD ""
                match parseDate10 eol with
                | none => (pre ++ [Event.eolShown eol], ExitStatus.ok)
                | some (y, m, d) =>
                  let delta : Int := (toOrdinal y m d : Int) - (env.today : Int)
                  if delta < 0 then
                    (pre ++ [Event.eolShown eol, Event.pastEol (formatBreakdown delta.natAbs)],
                     ExitStatus.ok)
                  else
                    (pre ++ [Event.eolShown eol, Event.remaining (formatBreakdown delta.toNat)],
                     ExitStatus.ok)

/-! ### Concrete sample data used by witnesses and counterexamples -/

/-- A tag definition with an exact tag `"2"` (and `"2.39"`). -/
def sampleTagDef : TagDef :=
  { displayName := some "two", tagNames := some ["2", "2.39"], endOfLife := some "2026-01-01" }

/-- A tag definition whose only tag name is `"latest"`. -/
def latestTagDef : TagDef :=
  { displayName := some "L", tagNames := some ["latest"], endOfLife := none }

/-- An auth environment whose exchange succeeds with token `"tok"`. -/
def authOkEnv : AuthEnv :=
  { username := some "u", pat := some "p", authResponse := Except.ok (some "tok", none) }

/-- An auth environment with the `DOCKER_USERNAME` variable unset. -/
def authMissingEnv : AuthEnv :=
  { username := none, pat := some "p", authResponse := Except.error () }

/-- A run in which a hardened image is detected, auth succeeds, and the
catalog lookup raises. -/
def envCatalogFail : RunEnv :=
  { labels := [("com.docker.dhi.url", "nginx")]
  , auth := authOkEnv
  , catalog := Except.error ()
  , today := 739617 }

/-- A run in which a hardened image is detected and auth fails. -/
def envAuthFail : RunEnv :=
  { labels := [("com.docker.dhi.url", "nginx")]
  , auth := authMissingEnv
  , catalog := Except.error ()
  , today := 739617 }

/-- A run whose matched tag definition has no `endOfLife` field. -/
def envNoEol : RunEnv :=
  { labels := [("com.docker.dhi.url", "nginx")]
  , auth := authOkEnv
  , catalog := Except.ok [{ displayName := some "X", tagNames := some [], endOfLife := none }]
  , today := 739617 }

/-! ## Helper lemmas -/

/-- If some element of `tds` satisfies `p`, then `find?` returns an
element satisfying `p`. -/
theorem find?_success {p : TagDef → Bool} {tds : List TagDef}
    (h : ∃ td ∈ tds, p td = true) :
    ∃ td, tds.find? p = some td ∧ p td = true := by
  obtain ⟨td, hmem, hp⟩ := h
  cases hfind : tds.find? p with
  | none =>
    rw [List.find?_eq_none] at hfind
    exact absurd hp (by simpa using hfind td hmem)
  | some td2 => exact ⟨td2, rfl, List.find?_some hfind⟩

/-- If no element of `tds` satisfies `p`, `find?` returns `none`. -/
theorem find?_failure {p : TagDef → Bool} {tds : List TagDef}
    (h : ∀ td ∈ tds, p td = false) : tds.find? p = none := by
  rw [List.find?_eq_none]
  intro x hx
  simp [h x hx]

/-- `isPrefixOf` holds of a list and itself followed by anything. -/
theorem isPrefixOfAppendSelf : ∀ (p r : List Char), p.isPrefixOf (p ++ r) = true := by
  intro p r
  induction p with
  | nil => simp [List.isPrefixOf]
  | cons a as ih => simp [List.isPrefixOf, ih]

/-- `isPrefixOf` as an existential over the remaining suffix. -/
theorem isPrefixOfExistsIff : ∀ (p l : List Char), p.isPrefixOf l = true ↔ ∃ t, l = p ++ t := by
  intro p
  induction p with
  | nil =>
    intro l
    simp [List.isPrefixOf]
  | cons a as ih =>
    intro l
    cases l with
    | nil => simp [List.isPrefixOf]
    | cons b bs =>
      simp only [List.isPrefixOf, Bool.and_eq_true, beq_iff_eq, ih bs]
      constructor
      · rintro ⟨rfl, t, rfl⟩
        exact ⟨t, rfl⟩
      · rintro ⟨t, ht⟩
        injection ht with h1 h2
        exact ⟨h1.symm, t, h2⟩

/-- `dropWhile` distributes over an append whose second part is left
unchanged by `dropWhile`. -/
theorem dropWhileAppendFixed (q : Char → Bool) :
    ∀ (X P : List Char), P.dropWhile q = P → (X ++ P).dropWhile q = X.dropWhile q ++ P := by
  intro X P hP
  induction X with
  | nil => simpa using hP
  | cons a X ih =>
    rw [List.cons_append, List.dropWhile_cons, List.dropWhile_cons]
    by_cases ha : q a
    · simp [ha, ih]
    · simp [ha]

/-- The repository after the digest step contains no `@`. -/
theorem noAtDigestCut : ∀ l : List Char, '@' ∉ digestCut l := by
  intro l hmem
  unfold digestCut at hmem
  split at hmem
  · have := List.mem_takeWhile_imp hmem
    simp at this
  · rename_i h
    exact h hmem

/-- Membership in the repository part of the tag split implies
membership in the input. -/
theorem memTagSplitFst : ∀ (l : List Char) (c : Char), c ∈ (tagSplit l).1 → c ∈ l := by
  intro l c h
  unfold tagSplit at h
  split at h
  · unfold rsplitColon at h
    simp only at h
    rw [List.mem_reverse] at h
    have h2 := List.mem_of_mem_tail h
    have h3 := (List.dropWhile_sublist (fun c => decide (c ≠ ':'))).subset h2
    rwa [List.mem_reverse] at h3
  · exact h

/-- A returned tag contains no colon (the split is after the last colon). -/
theorem tagSplitSndNoColon : ∀ (l t : List Char), (tagSplit l).2 = some t → ':' ∉ t := by
  intro l t h hmem
  unfold tagSplit at h
  split at h
  · unfold rsplitColon at h
    simp only [Option.some_inj] at h
    rw [← h, List.mem_reverse] at hmem
    have := List.mem_takeWhile_imp hmem
    simp at this
  · simp at h

/-- Membership after the `"library/"` strip implies membership before it. -/
theorem memLibraryCut : ∀ (l : List Char) (c : Char), c ∈ libraryCut l → c ∈ l := by
  intro l c h
  unfold libraryCut at h
  split at h
  · exact List.drop_subset _ _ h
  · exact h

/-- A common prefix cancels on both sides of `isPrefixOf`. -/
theorem isPrefixOfAppendCancel :
    ∀ (p q l : List Char), (p ++ q).isPrefixOf (p ++ l) = q.isPrefixOf l := by
  intro p q l
  induction p with
  | nil => rfl
  | cons a as ih => simp [List.isPrefixOf, ih]

/-- `isPrefixOf` fails when the head characters differ. -/
theorem isPrefixOfConsFalse (a b : Char) (as bs : List Char) (h : (a == b) = false) :
    (a :: as).isPrefixOf (b :: bs) = false := by
  simp [List.isPrefixOf, h]

/-- `dropWhile` keeps a list whose head fails the predicate. -/
theorem dropWhileNoLeadWs (c : Char) (h : isPySpace c = false) (tl : List Char) :
    (c :: tl).dropWhile isPySpace = c :: tl := by
  rw [List.dropWhile_cons, h]
  simp

/-- A stripped list is an initial segment of the original when the
original has no leading whitespace. -/
theorem pyStripAppendExists (rest : List Char) (h1 : rest.dropWhile isPySpace = rest) :
    ∃ u, pyStrip rest ++ u = rest := by
  refine ⟨(rest.reverse.takeWhile isPySpace).reverse, ?_⟩
  unfold pyStrip
  rw [h1, ← List.reverse_append, List.takeWhile_append_dropWhile, List.reverse_reverse]

/-- A non-prefix of a list is also a non-prefix of its stripped form,
when the list has no leading whitespace. -/
theorem notPrefixOfStrip (q rest : List Char) (h1 : rest.dropWhile isPySpace = rest)
    (hq : q.isPrefixOf rest = false) : q.isPrefixOf (pyStrip rest) = false := by
  cases hval : q.isPrefixOf (pyStrip rest) with
  | false => rfl
  | true =>
    exfalso
    obtain ⟨t, ht⟩ := (isPrefixOfExistsIff q (pyStrip rest)).mp hval
    obtain ⟨u, hu⟩ := pyStripAppendExists rest h1
    have : q.isPrefixOf rest = true := by
      rw [isPrefixOfExistsIff]
      exact ⟨t ++ u, by rw [← hu, ht, List.append_assoc]⟩
    rw [hq] at this
    exact Bool.false_ne_true this

/-- Generic prefix-strip consistency: parsing `p ++ rest` equals parsing
`rest` provided `rest` has no leading whitespace, no known prefix of its
own, `p` ends in a non-whitespace character, `p ++ rest` has no leading
whitespace, and `p` is the first known prefix matching the input. -/
theorem parseStripConsistency (p rest : List Char)
    (h1 : rest.dropWhile isPySpace = rest)
    (h2 : ∀ q ∈ knownRegistryPrefixes, q.isPrefixOf rest = false)
    (hh : (p ++ rest).dropWhile isPySpace = p ++ rest)
    (hr : p.reverse.dropWhile isPySpace = p.reverse)
    (hfind : knownRegistryPrefixes.find? (fun q => q.isPrefixOf (p ++ pyStrip rest))
      = some p) :
    parse_image_reference (p ++ rest) = parse_image_reference rest := by
  have hstrip : pyStrip (p ++ rest) = p ++ pyStrip rest := by
    unfold pyStrip
    rw [hh, List.reverse_append, dropWhileAppendFixed isPySpace _ _ hr,
        List.reverse_append, List.reverse_reverse, h1]
  have hstrip2 : stripKnownRegistry (pyStrip rest) = pyStrip rest := by
    unfold stripKnownRegistry
    have : knownRegistryPrefixes.find? (fun q => q.isPrefixOf (pyStrip rest)) = none := by
      rw [List.find?_eq_none]
      intro q hq
      simp [notPrefixOfStrip q rest h1 (h2 q hq)]
    rw [this]
  have hstrip3 : stripKnownRegistry (p ++ pyStrip rest) = pyStrip rest := by
    unfold stripKnownRegistry
    rw [hfind]
    exact List.drop_left _ _
  simp only [parse_image_reference]
  rw [hstrip, hstrip3, hstrip2]

/-! ## Claim theorems -/

/-- Claim C2, counterexample: applied to a delta of 0 days the formatter
produces the empty breakdown (all components are zero and are omitted),
not the string "0 days". -/
theorem format_breakdown_zero_cex :
    formatBreakdown 0 = "" ∧ formatBreakdown 0 ≠ "0 days" := by decide

/-- Claim C2 (amended): the day-delta formatter, applied to a delta of
400 days, produces "1 year, 1 month, 5 days" (365-day year, 30-day
month, remainder days, with correct pluralization); applied to a delta
of 0 days it produces the empty string, because zero components are
omitted from the breakdown. -/
theorem format_breakdown_values :
    formatBreakdown 400 = "1 year, 1 month, 5 days" ∧ formatBreakdown 0 = "" := by decide

/-- Claim C3: when the label set does not contain the key
`com.docker.dhi.url` (or maps it to an empty value), `extract_dhi_info`
returns no repository and no version, and (when inspection produced a
non-empty label set) the run reports "not hardened" and exits normally. -/
theorem extract_dhi_info_not_hardened (env : RunEnv)
    (h : pyFalsyOpt (dictGet env.labels "com.docker.dhi.url") = true) :
    extract_dhi_info env.labels = (none, none) ∧
    (env.labels.isEmpty = false → runModel env = ([Event.notHardened], ExitStatus.ok)) := by
  have h1 : extract_dhi_info env.labels = (none, none) := by
    unfold extract_dhi_info
    simp [h]
  refine ⟨h1, fun hne => ?_⟩
  unfold runModel
  simp [hne, h1, pyFalsyOpt]

/-- Witness for C3 at a concrete label set lacking the DHI URL label. -/
theorem extract_dhi_info_not_hardened_witness :
    extract_dhi_info ([("other", "x")] : Labels) = (none, none) ∧
    ((([("other", "x")] : Labels)).isEmpty = false →
      runModel ⟨[("other", "x")], authOkEnv, Except.error (), 0⟩ =
        ([Event.notHardened], ExitStatus.ok)) :=
  extract_dhi_info_not_hardened ⟨[("other", "x")], authOkEnv, Except.error (), 0⟩ (by decide)

/-- Claim C8: for every matched tag definition whose EOL field is absent
or empty, the run reports "no planned EOL" and finishes with exit
status 0 — absence of an EOL date is not an error. -/
theorem missing_eol_no_planned (env : RunEnv) (tds : List TagDef) (md : TagDef) (tok : String)
    (hne : env.labels.isEmpty = false)
    (hdet : pyFalsyOpt (extract_dhi_info env.labels).1 = false)
    (hauth : get_jwt_token env.auth = Except.ok tok)
    (hcat : env.catalog = Except.ok tds)
    (htds : tds.isEmpty = false)
    (hmatch : find_matching_tag_definition (extract_dhi_info env.labels).2 tds = some md)
    (heol : pyFalsyOpt md.endOfLife = true) :
    runModel env = ([Event.isHardened, Event.authOk,
      Event.matchedDef (md.displayName.getD "N/A"), Event.noPlannedEol], ExitStatus.ok) := by
  unfold runModel
  simp [hne, hdet, hauth, hcat, htds, hmatch, heol]

/-- Witness for C8 at a concrete run whose matched definition lacks an
EOL date. -/
theorem missing_eol_no_planned_witness :
    runModel envNoEol = ([Event.isHardened, Event.authOk,
      Event.matchedDef "X", Event.noPlannedEol], ExitStatus.ok) :=
  missing_eol_no_planned envNoEol
    [{ displayName := some "X", tagNames := some [], endOfLife := none }]
    { displayName := some "X", tagNames := some [], endOfLife := none } "tok"
    (by decide) (by decide) (by decide) (by decide) (by decide) (by decide) (by decide)

/-- Claim C9: `find_matching_tag_definition` returns `None` or an element
of the given list of tag definitions; it never synthesizes a definition. -/
theorem find_matching_mem (tag : Option String) (tds : List TagDef) (td : TagDef)
    (h : find_matching_tag_definition tag tds = some td) : td ∈ tds := by
  unfold find_matching_tag_definition at h
  split at h
  · split at h
    · rename_i td2 heq
      injection h with h
      exact h ▸ List.mem_of_find?_eq_some heq
    · cases tds with
      | nil => simp at h
      | cons a l =>
        have ha : a = td := by simpa using h
        exact ha ▸ List.mem_cons_self a l
  · split at h
    · rename_i td2 heq
      injection h with h
      exact h ▸ List.mem_of_find?_eq_some heq
    · exact List.mem_of_find?_eq_some h

/-- Witness for C9: the definition returned for tag "2" is a member of
the input list. -/
theorem find_matching_mem_witness : sampleTagDef ∈ [sampleTagDef] :=
  find_matching_mem (some "2") [sampleTagDef] sampleTagDef (by decide)

/-- Claim C10: for the empty-string version tag, matching behaves exactly
as for an absent tag (the branch skips exact and prefix matching and goes
to the "latest" fallback, then the first-definition fallback), and it
returns `None` exactly when the definition list is empty. -/
theorem find_matching_empty_tag (tds : List TagDef) :
    find_matching_tag_definition (some "") tds = find_matching_tag_definition none tds ∧
    (find_matching_tag_definition (some "") tds = none ↔ tds = []) := by
  have hb : find_matching_tag_definition (some "") tds =
      (match tds.find? hasLatest with
       | some td => some td
       | none => tds.head?) := by
    unfold find_matching_tag_definition
    rfl
  have hn : find_matching_tag_definition none tds =
      (match tds.find? hasLatest with
       | some td => some td
       | none => tds.head?) := by
    unfold find_matching_tag_definition
    rfl
  refine ⟨hb.trans hn.symm, ?_⟩
  rw [hb]
  cases tds with
  | nil => simp
  | cons a l =>
    cases hfind : (a :: l).find? hasLatest with
    | some td => simp
    | none => simp

/-- Claim C1, counterexample: for the non-empty tag "zzz" and a list
whose only definition carries the tag name "latest", matching returns
`None` — the "latest" fallback (and the first-definition fallback) is
not applied, contrary to the claimed order of preference. -/
theorem find_matching_no_latest_fallback_cex :
    find_matching_tag_definition (some "zzz") [latestTagDef] = none ∧
    hasLatest latestTagDef = true ∧
    exactMatch "zzz" latestTagDef = false ∧
    prefixMatch "zzz" latestTagDef = false := by decide

/-- Claim C1 (amended): for an absent or empty version tag, matching
selects the first definition whose tag-name list contains "latest", else
the first definition, else none; for a non-empty tag it selects the
first definition whose tag-name list contains the tag exactly, else the
first definition one of whose tag names is a prefix of the tag or of
which the tag is a prefix, else none — the "latest" and first-definition
fallbacks apply only when the tag is absent or empty. -/
theorem find_matching_preference_order (tag : Option String) (tds : List TagDef) :
    (pyFalsyOpt tag = true →
       ((∃ td ∈ tds, hasLatest td = true) →
          ∃ td, find_matching_tag_definition tag tds = some td ∧ hasLatest td = true) ∧
       ((∀ td ∈ tds, hasLatest td = false) →
          find_matching_tag_definition tag tds = tds.head?)) ∧
    (∀ t : String, tag = some t → t ≠ "" →
       ((∃ td ∈ tds, exactMatch t td = true) →
          ∃ td, find_matching_tag_definition tag tds = some td ∧ exactMatch t td = true) ∧
       ((∀ td ∈ tds, exactMatch t td = false) →
          ((∃ td ∈ tds, prefixMatch t td = true) →
             ∃ td, find_matching_tag_definition tag tds = some td ∧ prefixMatch t td = true) ∧
          ((∀ td ∈ tds, prefixMatch t td = false) →
             find_matching_tag_definition tag tds = none))) := by
  constructor
  · intro hfalsy
    constructor
    · intro hex
      obtain ⟨td, hfind, hp⟩ := find?_success hex
      refine ⟨td, ?_, hp⟩
      unfold find_matching_tag_definition
      simp [hfalsy, hfind]
    · intro hall
      have hnone : tds.find? hasLatest = none := find?_failure hall
      unfold find_matching_tag_definition
      simp [hfalsy, hnone]
  · rintro t rfl hne
    have hfalsy : pyFalsyOpt (some t) = false := by
      simp [pyFalsyOpt, hne]
    constructor
    · intro hex
      obtain ⟨td, hfind, hp⟩ := find?_success hex
      refine ⟨td, ?_, hp⟩
      unfold find_matching_tag_definition
      simp [hfalsy, hfind]
    · intro hallex
      have hnone : tds.find? (exactMatch t) = none := find?_failure hallex
      constructor
      · intro hpre
        obtain ⟨td, hfind, hp⟩ := find?_success hpre
        refine ⟨td, ?_, hp⟩
        unfold find_matching_tag_definition
        simp [hfalsy, hnone, hfind]
      · intro hallpre
        have hnone2 : tds.find? (prefixMatch t) = none := find?_failure hallpre
        unfold find_matching_tag_definition
        simp [hfalsy, hnone, hnone2]

/-- Witness for C1 at the non-empty tag "2" and a list containing an
exact match for it. -/
theorem find_matching_preference_order_witness :
    ∃ td, find_matching_tag_definition (some "2") [sampleTagDef] = some td ∧
      exactMatch "2" td = true :=
  ((find_matching_preference_order (some "2") [sampleTagDef]).2 "2" rfl (by decide)).1
    ⟨sampleTagDef, by decide, by decide⟩

/-- Claim C5, counterexample: when the first inspection fails and the
pull also fails, inspection is NOT retried — the invocation trace is
`[inspect, pull]` with a single inspection, contrary to the claimed
"retries inspection exactly once"; the result is the empty label set. -/
theorem get_image_labels_no_retry_cex :
    get_image_labels ⟨none, false, none⟩ = ([Cmd.inspect, Cmd.pull], []) ∧
    (get_image_labels ⟨none, false, none⟩).1.count Cmd.inspect = 1 := by decide

/-- Claim C5 (amended): label retrieval first invokes inspection; if that
fails it invokes the pull capability exactly once and retries inspection
exactly once when the pull succeeds (not at all when the pull fails);
whenever the pull or the retried inspection fails it returns the empty
label set rather than raising, and when the retried inspection succeeds
it returns the retrieved labels. -/
theorem get_image_labels_flow (env : DockerEnv) :
    (get_image_labels env).1.head? = some Cmd.inspect ∧
    (∀ r, env.inspect1 = some r →
       (get_image_labels env).1 = [Cmd.inspect] ∧ (get_image_labels env).2 = r.getD []) ∧
    (env.inspect1 = none →
       (get_image_labels env).1.count Cmd.pull = 1 ∧
       (env.pullOk = true → (get_image_labels env).1.count Cmd.inspect = 2) ∧
       (env.pullOk = false →
          (get_image_labels env).1.count Cmd.inspect = 1 ∧ (get_image_labels env).2 = []) ∧
       (env.inspect2 = none → (get_image_labels env).2 = []) ∧
       (∀ r, env.pullOk = true → env.inspect2 = some r →
          (get_image_labels env).2 = r.getD [])) := by
  obtain ⟨i1, p, i2⟩ := env
  cases i1 with
  | some r => simp [get_image_labels]
  | none =>
    cases p with
    | false => simp [get_image_labels]
    | true =>
      cases i2 with
      | some r => simp [get_image_labels]
      | none => simp [get_image_labels]

/-- Witness for C5: a failed first inspection followed by a successful
pull and a successful retried inspection yields two inspections and the
retrieved labels. -/
theorem get_image_labels_flow_witness :
    (get_image_labels ⟨none, true, some (some [("a", "b")])⟩).1.count Cmd.inspect = 2 :=
  ((get_image_labels_flow ⟨none, true, some (some [("a", "b")])⟩).2.2 rfl).2.1 rfl

/-- Claim C6, counterexample: with a hardened image detected and
authentication successful, a failure of the remote catalog lookup (the
tag-definition fetch) propagates as an uncaught exception — the run does
NOT complete with exit 0. -/
theorem catalog_failure_uncaught_cex :
    runModel envCatalogFail = ([Event.isHardened, Event.authOk], ExitStatus.uncaught) ∧
    (runModel envCatalogFail).2 ≠ ExitStatus.ok := by decide

/-- Claim C6 (amended): the explicit non-zero exit (`sys.exit(1)`)
occurs only when authentication fails (missing credentials, failed
request, or missing token); an abnormal termination occurs only when the
catalog lookup fails, and it always occurs when a hardened image is
detected, authentication succeeds, and the catalog lookup fails — that
failure is not caught, so the run terminates abnormally rather than
completing with exit 0. -/
theorem run_exit_characterization (env : RunEnv) :
    ((runModel env).2 = ExitStatus.exit1 → isErr (get_jwt_token env.auth) = true) ∧
    ((runModel env).2 = ExitStatus.uncaught → isErr env.catalog = true) ∧
    (env.labels.isEmpty = false →
       pyFalsyOpt (extract_dhi_info env.labels).1 = false →
       isErr (get_jwt_token env.auth) = false →
       isErr env.catalog = true →
       (runModel env).2 = ExitStatus.uncaught) := by
  by_cases h1 : env.labels.isEmpty
  · unfold runModel
    simp [h1]
  · have h1' : env.labels.isEmpty = false := by simpa using h1
    by_cases h2 : pyFalsyOpt (extract_dhi_info env.labels).1 = true
    · unfold runModel
      simp [h1', h2]
    · have h2' : pyFalsyOpt (extract_dhi_info env.labels).1 = false := by simpa using h2
      cases h3 : get_jwt_token env.auth with
      | error e =>
        unfold runModel
        simp [h1', h2', h3, isErr]
      | ok tok =>
        cases h4 : env.catalog with
        | error e =>
          unfold runModel
          simp [h1', h2', h3, h4, isErr]
        | ok tds =>
          have hok : (runModel env).2 = ExitStatus.ok := by
            unfold runModel
            simp only [h1', h2', h3, h4, Bool.false_eq_true, if_false]
            split
            · rfl
            · split
              · rfl
              · split
                · rfl
                · split
                  · rfl
                  · split
                    · rfl
                    · rfl
          rw [hok]
          refine ⟨?_, ?_, ?_⟩
          · intro h
            simp at h
          · intro h
            simp at h
          · intro h5 h6 h7 hc
            simp [isErr] at hc

/-- Witness for C6: auth failure yields the explicit exit, and a catalog
failure after successful auth yields the abnormal termination. -/
theorem run_exit_characterization_witness :
    isErr (get_jwt_token envAuthFail.auth) = true ∧
    isErr envCatalogFail.catalog = true ∧
    (runModel envCatalogFail).2 = ExitStatus.uncaught :=
  ⟨(run_exit_characterization envAuthFail).1 (by decide),
   (run_exit_characterization envCatalogFail).2.1 (by decide),
   (run_exit_characterization envCatalogFail).2.2 (by decide) (by decide) (by decide) (by decide)⟩

/-- Claim C4, counterexample: for the input "docker.io/docker.io/nginx"
only the first matching known prefix is stripped, and the returned
repository "docker.io/nginx" still begins with the known (stripped)
prefix "docker.io/" — normalization does not guarantee a prefix-free
repository. -/
theorem parse_image_reference_prefix_cex :
    parse_image_reference "docker.io/docker.io/nginx".data = ("docker.io/nginx".data, none) ∧
    ("docker.io/".data).isPrefixOf (parse_image_reference "docker.io/docker.io/nginx".data).1
      = true ∧
    "docker.io/".data ∈ knownRegistryPrefixes := by decide

/-- Claim C4 (amended): reference normalization strips at most the first
matching known registry prefix, removes everything from the first `@`
(so the returned repository contains no digest suffix), separates the
tag after the last colon (so a returned tag contains no colon), and
strips a leading "library/"; stripping is consistent in that parsing an
input that begins with any known registry prefix gives the same result
as parsing the remainder, whenever the remainder has no leading
whitespace, does not itself begin with a known prefix, and does not
begin with "library/" (otherwise the input matches a longer known
prefix in the strip list and more is stripped; the returned repository
may also still begin with a known prefix when the input repeats
prefixes). -/
theorem parse_image_reference_props :
    (∀ l : List Char, '@' ∉ (parse_image_reference l).1) ∧
    (∀ l t : List Char, (parse_image_reference l).2 = some t → ':' ∉ t) ∧
    (∀ p ∈ knownRegistryPrefixes, ∀ rest : List Char,
       rest.dropWhile isPySpace = rest →
       (∀ q ∈ knownRegistryPrefixes, q.isPrefixOf rest = false) →
       ("library/".data).isPrefixOf rest = false →
       parse_image_reference (p ++ rest) = parse_image_reference rest) := by
  refine ⟨?_, ?_, ?_⟩
  · intro l hmem
    simp only [parse_image_reference] at hmem
    exact noAtDigestCut _ (memTagSplitFst _ _ (memLibraryCut _ _ hmem))
  · intro l t h
    simp only [parse_image_reference] at h
    exact tagSplitSndNoColon _ _ h
  · intro p hp rest h1 h2 h3
    have hlib : ("library/".data).isPrefixOf (pyStrip rest) = false :=
      notPrefixOfStrip _ _ h1 h3
    simp only [knownRegistryPrefixes, List.mem_cons, List.not_mem_nil, or_false] at hp
    rcases hp with rfl | rfl | rfl | rfl
    · refine parseStripConsistency _ _ h1 h2
        (dropWhileNoLeadWs 'd' (by decide) ("ocker.io/library/".data ++ rest))
        (by decide) ?_
      exact List.find?_cons_of_pos _ (isPrefixOfAppendSelf _ _)
    · refine parseStripConsistency _ _ h1 h2
        (dropWhileNoLeadWs 'd' (by decide) ("ocker.io/".data ++ rest))
        (by decide) ?_
      have hno1 : ("docker.io/library/".data).isPrefixOf
          ("docker.io/".data ++ pyStrip rest) = false := by
        rw [show ("docker.io/library/".data : List Char)
              = "docker.io/".data ++ "library/".data from by decide,
            isPrefixOfAppendCancel]
        exact hlib
      show List.find? _ ("docker.io/library/".data :: _) = _
      rw [List.find?_cons_of_neg _ (by intro h; rw [hno1] at h; exact Bool.false_ne_true h)]
      exact List.find?_cons_of_pos _ (isPrefixOfAppendSelf _ _)
    · refine parseStripConsistency _ _ h1 h2
        (dropWhileNoLeadWs 'i' (by decide) ("ndex.docker.io/library/".data ++ rest))
        (by decide) ?_
      have hno1 : ("docker.io/library/".data).isPrefixOf
          ("index.docker.io/library/".data ++ pyStrip rest) = false :=
        isPrefixOfConsFalse 'd' 'i' "ocker.io/library/".data
          ("ndex.docker.io/library/".data ++ pyStrip rest) (by decide)
      have hno2 : ("docker.io/".data).isPrefixOf
          ("index.docker.io/library/".data ++ pyStrip rest) = false :=
        isPrefixOfConsFalse 'd' 'i' "ocker.io/".data
          ("ndex.docker.io/library/".data ++ pyStrip rest) (by decide)
      show List.find? _ ("docker.io/library/".data :: "docker.io/".data :: _) = _
      rw [List.find?_cons_of_neg _ (by intro h; rw [hno1] at h; exact Bool.false_ne_true h),
          List.find?_cons_of_neg _ (by intro h; rw [hno2] at h; exact Bool.false_ne_true h)]
      exact List.find?_cons_of_pos _ (isPrefixOfAppendSelf _ _)
    · refine parseStripConsistency _ _ h1 h2
        (dropWhileNoLeadWs 'i' (by decide) ("ndex.docker.io/".data ++ rest))
        (by decide) ?_
      have hno1 : ("docker.io/library/".data).isPrefixOf
          ("index.docker.io/".data ++ pyStrip rest) = false :=
        isPrefixOfConsFalse 'd' 'i' "ocker.io/library/".data
          ("ndex.docker.io/".data ++ pyStrip rest) (by decide)
      have hno2 : ("docker.io/".data).isPrefixOf
          ("index.docker.io/".data ++ pyStrip rest) = false :=
        isPrefixOfConsFalse 'd' 'i' "ocker.io/".data
          ("ndex.docker.io/".data ++ pyStrip rest) (by decide)
      have hno3 : ("index.docker.io/library/".data).isPrefixOf
          ("index.docker.io/".data ++ pyStrip rest) = false := by
        rw [show ("index.docker.io/library/".data : List Char)
              = "index.docker.io/".data ++ "library/".data from by decide,
            isPrefixOfAppendCancel]
        exact hlib
      show List.find? _
        ("docker.io/library/".data :: "docker.io/".data ::
         "index.docker.io/library/".data :: _) = _
      rw [List.find?_cons_of_neg _ (by intro h; rw [hno1] at h; exact Bool.false_ne_true h),
          List.find?_cons_of_neg _ (by intro h; rw [hno2] at h; exact Bool.false_ne_true h),
          List.find?_cons_of_neg _ (by intro h; rw [hno3] at h; exact Bool.false_ne_true h)]
      exact List.find?_cons_of_pos _ (isPrefixOfAppendSelf _ _)

/-- Witness for C4: no `@` in a parsed digest reference, the tag of
"nginx:1.25" contains no colon, and prepending the known prefix
"docker.io/" to "nginx:1.25" parses to the same pair. -/
theorem parse_image_reference_props_witness :
    ('@' ∉ (parse_image_reference "nginx@sha256:abc".data).1) ∧
    (':' ∉ "1.25".data) ∧
    parse_image_reference ("docker.io/".data ++ "nginx:1.25".data) =
      parse_image_reference "nginx:1.25".data :=
  ⟨parse_image_reference_props.1 "nginx@sha256:abc".data,
   parse_image_reference_props.2.1 "nginx:1.25".data "1.25".data (by decide),
   parse_image_reference_props.2.2 "docker.io/".data (by decide) "nginx:1.25".data
     (by decide) (by decide) (by decide)⟩

end DhiEol
